import Mathlib

/-!
Verification of the webmix audio engine core. Time values, sample values and
gain parameters are modelled as rationals; the scheduling and routing logic is
translated from the two engine variants of the repository, the one in
src/utils/audioEngine.ts (clips carry their decoded buffer inline) and the one
in src/services/AudioEngine.ts (clips reference buffers by identifier through
the sample store). The WebAudio graph itself is represented by the description
the engine builds: the set of scheduled one-shot sources and the static
parameter values written into each node.
-/

/-- Decoded PCM buffer: channel count is the length of the channel list,
frame count and sample rate as in an AudioBuffer. -/
structure AudioBufferM where
  sampleRate : ℕ
  frames : ℕ
  channels : List (List ℚ)
  deriving Repr, DecidableEq

def AudioBufferM.numberOfChannels (b : AudioBufferM) : ℕ := b.channels.length

/-- Duration in seconds of a buffer, frames divided by sample rate. -/
def AudioBufferM.duration (b : AudioBufferM) : ℚ := (b.frames : ℚ) / (b.sampleRate : ℚ)

/-- TrackEffects of src/types.ts: nested eq and echo records, flattened here. -/
structure TrackEffectsU where
  eqLow : ℚ
  eqMid : ℚ
  eqHigh : ℚ
  echoAmount : ℚ
  echoFeedback : ℚ
  echoTime : ℚ
  deriving Repr, DecidableEq

/-- Track record of src/types.ts as consumed by src/utils/audioEngine.ts. -/
structure TrackU where
  id : String
  volume : ℚ
  muted : Bool
  playbackRate : ℚ
  effects : TrackEffectsU
  deriving Repr, DecidableEq

/-- AudioClip of src/types.ts: the decoded buffer is embedded in the clip. -/
structure ClipU where
  id : String
  trackId : String
  buffer : AudioBufferM
  startTime : ℚ
  offset : ℚ
  duration : ℚ
  deriving Repr, DecidableEq

/-- Destination a source node is connected to: the input of a track chain, or
the master gain fallback when no chain exists for the trackId. -/
inductive Dest where
  | chain (trackId : String)
  | master
  deriving Repr, DecidableEq

/-- One scheduled one-shot voice: the arguments passed to source.start plus the
playback rate written on the node and the connection destination. -/
structure Voice where
  whenToStart : ℚ
  offsetInBuffer : ℚ
  durationOfBufferToPlay : ℚ
  rate : ℚ
  dest : Dest
  deriving Repr, DecidableEq

/-- A source node held in the active set, with a flag recording whether its
playback already finished naturally. -/
structure SourceNode where
  voice : Voice
  ended : Bool
  deriving Repr, DecidableEq

namespace AudioEngineU

/-- Mutable state of the utils engine: context.currentTime is the wall clock
now, startTime and pausedAt and isPlaying as in the class fields, trackChains
is the set of track identifiers owning a lazily created chain. -/
structure EngineState where
  now : ℚ
  startTime : ℚ
  pausedAt : ℚ
  isPlaying : Bool
  trackChains : List String
  activeSources : List SourceNode
  deriving Repr, DecidableEq

/-- Effect of updateTrackParams on the chain map: a chain is created for the
track on first reference and persists afterwards. -/
def ensureChain (chains : List String) (t : TrackU) : List String :=
  if t.id ∈ chains then chains else chains ++ [t.id]

/-- JavaScript expression track.playbackRate or 1.0: a zero rate falls back
to one. -/
def effRate (t : TrackU) : ℚ := if t.playbackRate = 0 then 1 else t.playbackRate

/-- Pre-gate voice the play loop computes for a clip whose track exists, is
not muted, and whose end does not lie strictly before the seek offset. -/
def computedVoice (now startOffset : ℚ) (chains : List String) (rate : ℚ)
    (clip : ClipU) : Voice :=
  let dest := if clip.trackId ∈ chains then Dest.chain clip.trackId else Dest.master
  if startOffset ≤ clip.startTime then
    ⟨now + (clip.startTime - startOffset), clip.offset, clip.duration, rate, dest⟩
  else
    let timePassedInBuffer := (startOffset - clip.startTime) * rate
    ⟨now, clip.offset + timePassedInBuffer, clip.duration - timePassedInBuffer, rate, dest⟩

/-- Body of the clip loop of AudioEngine.play in src/utils/audioEngine.ts:
returns the voice started for the clip, or none when the clip is skipped. -/
def scheduleClip (now startOffset : ℚ) (tracks : List TrackU)
    (chains : List String) (clip : ClipU) : Option Voice :=
  match tracks.find? (fun t => t.id = clip.trackId) with
  | none => none
  | some track =>
    if track.muted then none
    else
      let playbackRate := effRate track
      let effectiveDuration := clip.duration / playbackRate
      let absoluteEndTime := clip.startTime + effectiveDuration
      if absoluteEndTime < startOffset then none
      else
        let v := computedVoice now startOffset chains playbackRate clip
        if 0 < v.durationOfBufferToPlay ∧ v.offsetInBuffer < clip.buffer.duration
        then some v else none

/-- AudioEngine.stop of src/utils/audioEngine.ts: clear the active set and the
playing flag; startTime and pausedAt are untouched. -/
def stop (st : EngineState) : EngineState :=
  { st with activeSources := [], isPlaying := false }

/-- AudioEngine.play of src/utils/audioEngine.ts: stop first when already
playing, set the transport fields, ensure chains for all tracks, then schedule
every clip through the loop body modelled by scheduleClip. -/
def play (st : EngineState) (clips : List ClipU) (tracks : List TrackU)
    (startOffset : ℚ) : EngineState :=
  let st0 := if st.isPlaying then stop st else st
  let chains := tracks.foldl ensureChain st0.trackChains
  { st0 with
    isPlaying := true
    startTime := st0.now - startOffset
    pausedAt := startOffset
    trackChains := chains
    activeSources := st0.activeSources ++
      (clips.filterMap (scheduleClip st0.now startOffset tracks chains)).map
        (fun v => ⟨v, false⟩) }

/-- AudioEngine.getCurrentTime of src/utils/audioEngine.ts. -/
def getCurrentTime (st : EngineState) : ℚ :=
  if st.isPlaying then st.now - st.startTime else st.pausedAt

/-- Wall clock advance: only context.currentTime moves. -/
def advance (st : EngineState) (t : ℚ) : EngineState :=
  { st with now := st.now + t }

/-- Raw source.stop call as the spec describes it: halting a voice that
already finished naturally surfaces an error instead of doing work. -/
def sourceStopRaw (s : SourceNode) : Except String SourceNode :=
  if s.ended then Except.error "InvalidStateError" else Except.ok { s with ended := true }

/-- The try catch wrapper around source.stop in stop: an error is absorbed and
the node is left as it was. -/
def sourceStopCaught (s : SourceNode) : SourceNode :=
  match sourceStopRaw s with
  | Except.ok s2 => s2
  | Except.error _ => s

/-- The onended handler of a voice: the source deletes itself from the active
set when it finishes naturally. -/
def onEnded (st : EngineState) (s : SourceNode) : EngineState :=
  { st with activeSources := st.activeSources.filter (fun x => x ≠ s) }

end AudioEngineU

namespace AudioEngineU

theorem computedVoice_future (now startOffset : ℚ) (chains : List String)
    (rate : ℚ) (clip : ClipU) (h : startOffset ≤ clip.startTime) :
    computedVoice now startOffset chains rate clip =
      ⟨now + (clip.startTime - startOffset), clip.offset, clip.duration, rate,
        if clip.trackId ∈ chains then Dest.chain clip.trackId else Dest.master⟩ := by
  simp [computedVoice, h]

theorem computedVoice_inside (now startOffset : ℚ) (chains : List String)
    (rate : ℚ) (clip : ClipU) (h : ¬ startOffset ≤ clip.startTime) :
    computedVoice now startOffset chains rate clip =
      ⟨now, clip.offset + (startOffset - clip.startTime) * rate,
        clip.duration - (startOffset - clip.startTime) * rate, rate,
        if clip.trackId ∈ chains then Dest.chain clip.trackId else Dest.master⟩ := by
  simp [computedVoice, h]

theorem scheduleClip_unfold (now startOffset : ℚ) (tracks : List TrackU)
    (chains : List String) (clip : ClipU) (track : TrackU)
    (hfind : tracks.find? (fun t => t.id = clip.trackId) = some track)
    (hmute : track.muted = false) :
    scheduleClip now startOffset tracks chains clip =
      (if clip.startTime + clip.duration / effRate track < startOffset then none
       else if 0 < (computedVoice now startOffset chains (effRate track) clip).durationOfBufferToPlay ∧
              (computedVoice now startOffset chains (effRate track) clip).offsetInBuffer
                < clip.buffer.duration
            then some (computedVoice now startOffset chains (effRate track) clip)
            else none) := by
  simp only [scheduleClip, hfind, hmute, Bool.false_eq_true, if_false]

/-- C1: for every clip whose track exists and is not muted, under the clip
invariant of the data model (positive duration fitting in the buffer) and a
positive effective playback rate: a clip starting at or after the seek time
gets a voice at now plus the wait, reading offset for duration; a clip
straddling the seek time starts immediately with the elapsed timeline span
converted to buffer time via the rate; a clip entirely in the past gets no
voice. -/
theorem C1_play_schedule_cases
    (now atTime : ℚ) (tracks : List TrackU) (chains : List String)
    (clip : ClipU) (track : TrackU)
    (hfind : tracks.find? (fun t => t.id = clip.trackId) = some track)
    (hmute : track.muted = false)
    (hdur : 0 < clip.duration)
    (hinv : clip.offset + clip.duration ≤ clip.buffer.duration)
    (hrate : 0 < effRate track) :
    (atTime ≤ clip.startTime →
      scheduleClip now atTime tracks chains clip =
        some ⟨now + (clip.startTime - atTime), clip.offset, clip.duration,
          effRate track,
          if clip.trackId ∈ chains then Dest.chain clip.trackId else Dest.master⟩) ∧
    (clip.startTime < atTime →
      atTime < clip.startTime + clip.duration / effRate track →
      scheduleClip now atTime tracks chains clip =
        some ⟨now, clip.offset + (atTime - clip.startTime) * effRate track,
          clip.duration - (atTime - clip.startTime) * effRate track,
          effRate track,
          if clip.trackId ∈ chains then Dest.chain clip.trackId else Dest.master⟩) ∧
    (clip.startTime + clip.duration / effRate track ≤ atTime →
      scheduleClip now atTime tracks chains clip = none) := by
  have hdivpos : 0 < clip.duration / effRate track := div_pos hdur hrate
  rw [scheduleClip_unfold now atTime tracks chains clip track hfind hmute]
  refine ⟨?_, ?_, ?_⟩
  · intro hle
    rw [if_neg (by linarith : ¬ clip.startTime + clip.duration / effRate track < atTime)]
    rw [computedVoice_future now atTime chains (effRate track) clip hle]
    exact if_pos ⟨hdur, by linarith⟩
  · intro hlt hend
    rw [if_neg (by linarith : ¬ clip.startTime + clip.duration / effRate track < atTime)]
    rw [computedVoice_inside now atTime chains (effRate track) clip (not_le.mpr hlt)]
    have hpass : (atTime - clip.startTime) * effRate track < clip.duration :=
      (lt_div_iff₀ hrate).mp (by linarith)
    refine if_pos ⟨by simpa using hpass, ?_⟩
    show clip.offset + (atTime - clip.startTime) * effRate track < clip.buffer.duration
    linarith
  · intro hge
    by_cases hc : clip.startTime + clip.duration / effRate track < atTime
    · rw [if_pos hc]
    · have heq : clip.startTime + clip.duration / effRate track = atTime :=
        le_antisymm hge (not_lt.mp hc)
      rw [if_neg hc]
      rw [computedVoice_inside now atTime chains (effRate track) clip
        (by intro h; linarith : ¬ atTime ≤ clip.startTime)]
      refine if_neg ?_
      rintro ⟨h1, -⟩
      have hpe : atTime - clip.startTime = clip.duration / effRate track := by linarith
      rw [hpe, div_mul_cancel₀ _ (ne_of_gt hrate)] at h1
      simp at h1

end AudioEngineU

/-- Effects record of the services variant Track: flat eqLow, eqMid, eqHigh,
delayTime, delayFeedback, delayMix fields as used in src/services. -/
structure TrackEffectsS where
  eqLow : ℚ
  eqMid : ℚ
  eqHigh : ℚ
  delayTime : ℚ
  delayFeedback : ℚ
  delayMix : ℚ
  deriving Repr, DecidableEq

/-- Track record of the services variant: mute flag is isMuted. -/
structure TrackS where
  id : String
  volume : ℚ
  isMuted : Bool
  effects : TrackEffectsS
  deriving Repr, DecidableEq

/-- AudioClip of the services variant: the buffer is referenced through the
sample store by bufferId. -/
structure ClipS where
  id : String
  bufferId : String
  trackId : String
  startTime : ℚ
  offset : ℚ
  duration : ℚ
  deriving Repr, DecidableEq

/-- Static parameter values written into the nodes of one track chain:
volume gain, the three EQ gains, delay time, feedback gain and wet mix gain. -/
structure ChainParams where
  volume : ℚ
  eqLow : ℚ
  eqMid : ℚ
  eqHigh : ℚ
  delayTime : ℚ
  delayFeedback : ℚ
  delayWet : ℚ
  deriving Repr, DecidableEq

/-- One one-shot source scheduled into an offline render: the track input it
is connected to, the three arguments of source.start, and the playback rate
value written on the node. -/
structure OfflineSource where
  dest : String
  startTime : ℚ
  offset : ℚ
  duration : ℚ
  rate : ℚ
  deriving Repr, DecidableEq

/-- Description of the graph an offline render builds: the context
configuration and, per track, the static chain parameters, plus all scheduled
sources. The rendered samples are a deterministic function of this graph. -/
structure OfflineGraph where
  numberOfChannels : ℕ
  lengthInSamples : ℤ
  sampleRate : ℕ
  chains : List (String × ChainParams)
  sources : List OfflineSource
  deriving Repr, DecidableEq

namespace AudioEngineU

/-- Static parameter values the offline chain of renderOffline receives in
src/utils/audioEngine.ts: a muted track gets volume zero, delay time is the
raw echo time. -/
def offlineChainParams (t : TrackU) : ChainParams :=
  ⟨if t.muted then 0 else t.volume, t.effects.eqLow, t.effects.eqMid,
    t.effects.eqHigh, t.effects.echoTime, t.effects.echoFeedback,
    t.effects.echoAmount⟩

/-- Clip loop body of renderOffline: skip when the track is absent or muted
or has no offline input, else schedule one source at the absolute start. -/
def renderClip (tracks : List TrackU) (clip : ClipU) : Option OfflineSource :=
  match tracks.find? (fun t => t.id = clip.trackId) with
  | none => none
  | some track =>
    if track.muted then none
    else if clip.trackId ∈ tracks.map TrackU.id then
      some ⟨clip.trackId, clip.startTime, clip.offset, clip.duration, effRate track⟩
    else none

/-- AudioEngine.renderOffline of src/utils/audioEngine.ts as the offline graph
it builds: stereo context of ceil(totalDuration times 44100) frames at
44100 Hz, one chain per track with static values, one source per kept clip. -/
def renderOffline (clips : List ClipU) (tracks : List TrackU)
    (totalDuration : ℚ) : OfflineGraph :=
  { numberOfChannels := 2
    lengthInSamples := ⌈totalDuration * 44100⌉
    sampleRate := 44100
    chains := tracks.map (fun t => (t.id, offlineChainParams t))
    sources := clips.filterMap (renderClip tracks) }

end AudioEngineU

namespace AudioEngineS

/-- Mutable state of the services engine: wall clock, the sample store, the
set of track identifiers with chains, and the active source set. -/
structure EngineState where
  now : ℚ
  bufferMap : List (String × AudioBufferM)
  trackNodes : List String
  activeSources : List SourceNode
  deriving Repr, DecidableEq

/-- AudioEngine.addBuffer of src/services/AudioEngine.ts. -/
def addBuffer (st : EngineState) (id : String) (buffer : AudioBufferM) : EngineState :=
  { st with bufferMap := (id, buffer) :: st.bufferMap.filter (fun p => p.1 ≠ id) }

/-- AudioEngine.stopAll of src/services/AudioEngine.ts: halt every active
source inside a try catch and clear the set. -/
def stopAll (st : EngineState) : EngineState :=
  { st with activeSources := [] }

/-- Effect of setupTrack over the chain-owning set: a chain is created once
per track id and persists. -/
def setupTracks (nodes : List String) (tracks : List TrackS) : List String :=
  tracks.foldl (fun acc t => if t.id ∈ acc then acc else acc ++ [t.id]) nodes

/-- Clip loop body of AudioEngine.schedulePlayback in
src/services/AudioEngine.ts: skip only when the buffer or the track chain is
absent; otherwise branch on the clip position against the seek offset. The
playback rate of the source node is left at its default of one. -/
def scheduleClip (bufferMap : List (String × AudioBufferM)) (nodes : List String)
    (now startOffset : ℚ) (clip : ClipS) : Option Voice :=
  if (bufferMap.lookup clip.bufferId).isSome ∧ clip.trackId ∈ nodes then
    if startOffset ≤ clip.startTime then
      some ⟨now + (clip.startTime - startOffset), clip.offset, clip.duration, 1,
        Dest.chain clip.trackId⟩
    else if startOffset < clip.startTime + clip.duration then
      some ⟨now, clip.offset + (startOffset - clip.startTime),
        clip.duration - (startOffset - clip.startTime), 1, Dest.chain clip.trackId⟩
    else none
  else none

/-- AudioEngine.schedulePlayback of src/services/AudioEngine.ts: stop all,
set up the track chains, then schedule every clip through the loop body. -/
def schedulePlayback (st : EngineState) (clips : List ClipS) (startOffset : ℚ)
    (tracks : List TrackS) : EngineState :=
  let st1 := stopAll st
  let nodes := setupTracks st1.trackNodes tracks
  { st1 with
    trackNodes := nodes
    activeSources := st1.activeSources ++
      (clips.filterMap (scheduleClip st1.bufferMap nodes st1.now startOffset)).map
        (fun v => ⟨v, false⟩) }

/-- Target values AudioEngine.updateTrackParams ramps the chain nodes of a
track towards in src/services/AudioEngine.ts: a muted track is ramped to
volume zero, delay time is clamped below by a hundredth of a second. -/
def updateTrackTargets (t : TrackS) : ChainParams :=
  ⟨if t.isMuted then 0 else t.volume, t.effects.eqLow, t.effects.eqMid,
    t.effects.eqHigh, max (1 / 100) t.effects.delayTime,
    t.effects.delayFeedback, t.effects.delayMix⟩

/-- Static parameter values the offline chain of exportProject receives:
identical values to the live targets, written once as plain values. -/
def exportChainParams (t : TrackS) : ChainParams :=
  ⟨if t.isMuted then 0 else t.volume, t.effects.eqLow, t.effects.eqMid,
    t.effects.eqHigh, max (1 / 100) t.effects.delayTime,
    t.effects.delayFeedback, t.effects.delayMix⟩

/-- Clip loop body of exportProject: skip only when the buffer or the offline
track input is absent, else schedule one source with the absolute start time,
clip offset and clip duration. -/
def exportClip (bufferMap : List (String × AudioBufferM)) (tracks : List TrackS)
    (clip : ClipS) : Option OfflineSource :=
  if (bufferMap.lookup clip.bufferId).isSome ∧ clip.trackId ∈ tracks.map TrackS.id
  then some ⟨clip.trackId, clip.startTime, clip.offset, clip.duration, 1⟩
  else none

/-- AudioEngine.exportProject of src/services/AudioEngine.ts as the offline
graph it builds before rendering and WAV encoding. -/
def exportProject (st : EngineState) (clips : List ClipS) (tracks : List TrackS)
    (totalDuration : ℚ) : OfflineGraph :=
  { numberOfChannels := 2
    lengthInSamples := ⌈totalDuration * 44100⌉
    sampleRate := 44100
    chains := tracks.map (fun t => (t.id, exportChainParams t))
    sources := clips.filterMap (exportClip st.bufferMap tracks) }

end AudioEngineS

/-- Concrete ten second mono buffer used by the witnesses. -/
def bufA : AudioBufferM := ⟨8, 80, [List.replicate 80 0]⟩

/-- Neutral effects record of the utils variant. -/
def fxU0 : TrackEffectsU := ⟨0, 0, 0, 0, 0, 0⟩

/-- Unmuted track of the utils variant at rate one. -/
def trackA : TrackU := ⟨"t1", 1, false, 1, fxU0⟩

/-- Muted track of the utils variant. -/
def trackAmuted : TrackU := ⟨"t1", 1, true, 1, fxU0⟩

/-- Clip on trackA covering timeline seconds five to eight. -/
def clipA : ClipU := ⟨"c1", "t1", bufA, 5, 0, 3⟩

/-- Clip on trackA covering timeline seconds twelve to fifteen. -/
def clipB : ClipU := ⟨"c2", "t1", bufA, 12, 0, 3⟩

/-- Fresh utils engine state at wall clock zero. -/
def stc : AudioEngineU.EngineState := ⟨0, 0, 0, false, [], []⟩

/-- Neutral effects record of the services variant. -/
def fxS0 : TrackEffectsS := ⟨0, 0, 0, 0, 0, 0⟩

/-- Unmuted track of the services variant. -/
def trackS1 : TrackS := ⟨"t1", 1, false, fxS0⟩

/-- Muted track of the services variant. -/
def trackS1muted : TrackS := ⟨"t1", 1, true, fxS0⟩

/-- Services clip referencing buffer b1 on track t1 from time zero. -/
def clipS1 : ClipS := ⟨"c1", "b1", "t1", 0, 0, 1⟩

/-- Source node still sounding. -/
def srcLive : SourceNode := ⟨⟨0, 0, 1, 1, Dest.master⟩, false⟩

/-- Source node that already finished naturally. -/
def srcEnded : SourceNode := ⟨⟨0, 0, 1, 1, Dest.master⟩, true⟩

/-- Utils engine state mid playback with two active sources. -/
def stU1 : AudioEngineU.EngineState := ⟨5, 0, 0, true, ["t1"], [srcLive, srcEnded]⟩

/-- Services engine state holding buffer b1 and one active source. -/
def stS1 : AudioEngineS.EngineState := ⟨5, [("b1", bufA)], ["t1"], [srcLive]⟩

/-- Witness for C1: a clip three seconds past the seek point is scheduled
three seconds into the future with its full offset and duration. -/
theorem C1_play_schedule_cases_witness :
    AudioEngineU.scheduleClip 10 2 [trackA] ["t1"] clipA =
      some ⟨13, 0, 3, 1, Dest.chain "t1"⟩ :=
  ((AudioEngineU.C1_play_schedule_cases 10 2 [trackA] ["t1"] clipA trackA
      (by decide) (by decide) (by norm_num [clipA])
      (by norm_num [clipA, bufA, AudioBufferM.duration])
      (by norm_num [trackA, AudioEngineU.effRate])).1
    (by norm_num [clipA])).trans
    (by norm_num [clipA, trackA, AudioEngineU.effRate])

/-- C2 counterexample: the services schedulePlayback and exportProject both
create a source node for a clip whose track is muted, so the claim that no
voice is created in every play and export path is false on the code. -/
theorem C2_muted_counterexample :
    trackS1muted.isMuted = true ∧
    (AudioEngineS.schedulePlayback ⟨0, [("b1", bufA)], [], []⟩ [clipS1] 0
        [trackS1muted]).activeSources =
      [⟨⟨0 + ((0 : ℚ) - 0), 0, 1, 1, Dest.chain "t1"⟩, false⟩] ∧
    (AudioEngineS.exportProject ⟨0, [("b1", bufA)], [], []⟩ [clipS1]
        [trackS1muted] 1).sources = [⟨"t1", 0, 0, 1, 1⟩] := by
  refine ⟨rfl, ?_, ?_⟩
  · norm_num [AudioEngineS.schedulePlayback, AudioEngineS.stopAll,
      AudioEngineS.setupTracks, AudioEngineS.scheduleClip, List.lookup,
      List.filterMap_cons, List.filterMap_nil, clipS1, trackS1muted]
  · norm_num [AudioEngineS.exportProject, AudioEngineS.exportClip,
      List.lookup, List.filterMap_cons, List.filterMap_nil, clipS1,
      trackS1muted]

/-- C2 amended: in the utils engine a muted track is skipped entirely, both
in play and in renderOffline; the services engine instead creates the voice
and silences it through a zero volume gain, both live and offline. -/
theorem C2_muted_skipped (now atTime : ℚ) (tracks : List TrackU)
    (chains : List String) (clip : ClipU) (track : TrackU) (tS : TrackS)
    (hfind : tracks.find? (fun t => t.id = clip.trackId) = some track)
    (hmute : track.muted = true) (hmuteS : tS.isMuted = true) :
    AudioEngineU.scheduleClip now atTime tracks chains clip = none ∧
    AudioEngineU.renderClip tracks clip = none ∧
    (AudioEngineS.updateTrackTargets tS).volume = 0 ∧
    (AudioEngineS.exportChainParams tS).volume = 0 := by
  refine ⟨?_, ?_, ?_, ?_⟩
  · simp [AudioEngineU.scheduleClip, hfind, hmute]
  · simp [AudioEngineU.renderClip, hfind, hmute]
  · simp [AudioEngineS.updateTrackTargets, hmuteS]
  · simp [AudioEngineS.exportChainParams, hmuteS]

/-- Witness for the amended C2 on a concrete muted track. -/
theorem C2_muted_skipped_witness :
    AudioEngineU.scheduleClip 0 0 [trackAmuted] [] clipA = none ∧
    AudioEngineU.renderClip [trackAmuted] clipA = none ∧
    (AudioEngineS.updateTrackTargets trackS1muted).volume = 0 ∧
    (AudioEngineS.exportChainParams trackS1muted).volume = 0 :=
  C2_muted_skipped 0 0 [trackAmuted] [] clipA trackAmuted trackS1muted
    (by decide) (by decide) (by decide)

/-- C3: in play, a clip whose computed remaining duration is not positive or
whose computed read offset does not lie strictly inside its buffer is skipped
without error, and the remaining clips of the call are scheduled exactly as
if the skipped clip were absent. -/
theorem C3_gate_skip (st : AudioEngineU.EngineState) (tracks : List TrackU)
    (atTime : ℚ) (clip : ClipU) (track : TrackU) (clips1 clips2 : List ClipU)
    (hfind : tracks.find? (fun t => t.id = clip.trackId) = some track)
    (hmute : track.muted = false)
    (hskip : (AudioEngineU.computedVoice st.now atTime
        (tracks.foldl AudioEngineU.ensureChain st.trackChains)
        (AudioEngineU.effRate track) clip).durationOfBufferToPlay ≤ 0 ∨
      clip.buffer.duration ≤ (AudioEngineU.computedVoice st.now atTime
        (tracks.foldl AudioEngineU.ensureChain st.trackChains)
        (AudioEngineU.effRate track) clip).offsetInBuffer) :
    AudioEngineU.scheduleClip st.now atTime tracks
      (tracks.foldl AudioEngineU.ensureChain st.trackChains) clip = none ∧
    AudioEngineU.play st (clips1 ++ clip :: clips2) tracks atTime =
      AudioEngineU.play st (clips1 ++ clips2) tracks atTime := by
  have hnone : AudioEngineU.scheduleClip st.now atTime tracks
      (tracks.foldl AudioEngineU.ensureChain st.trackChains) clip = none := by
    rw [AudioEngineU.scheduleClip_unfold st.now atTime tracks
      (tracks.foldl AudioEngineU.ensureChain st.trackChains) clip track hfind hmute]
    split
    · rfl
    · refine if_neg ?_
      rintro ⟨h1, h2⟩
      rcases hskip with h | h
      · exact absurd h1 (not_lt.mpr h)
      · exact absurd h2 (not_lt.mpr h)
  refine ⟨hnone, ?_⟩
  cases hP : st.isPlaying <;>
    simp [AudioEngineU.play, AudioEngineU.stop, hP, List.filterMap_append,
      List.filterMap_cons, hnone]

/-- Witness for C3: a clip fully in the past is skipped while a later clip of
the same call is still scheduled. -/
theorem C3_gate_skip_witness :
    AudioEngineU.scheduleClip 0 10 [trackA] ["t1"] clipA = none ∧
    AudioEngineU.play stc [clipB, clipA] [trackA] 10 =
      AudioEngineU.play stc [clipB] [trackA] 10 :=
  C3_gate_skip stc [trackA] 10 clipA trackA [clipB] [] (by decide) (by decide)
    (Or.inl (by norm_num [AudioEngineU.computedVoice, AudioEngineU.effRate,
      AudioEngineU.ensureChain, stc, clipA, trackA]))

/-- C4: stopping clears the active set of both engines and reports not
playing; every previously active source is halted by the caught stop call,
stopping an already finished source is an absorbed no-op, and a source that
ends naturally removes itself from the active set. -/
theorem C4_stop_clears (stU : AudioEngineU.EngineState)
    (stS : AudioEngineS.EngineState) :
    (AudioEngineU.stop stU).activeSources = [] ∧
    (AudioEngineU.stop stU).isPlaying = false ∧
    (AudioEngineS.stopAll stS).activeSources = [] ∧
    (∀ s ∈ stU.activeSources, (AudioEngineU.sourceStopCaught s).ended = true) ∧
    (∀ s : SourceNode, s.ended = true → AudioEngineU.sourceStopCaught s = s) ∧
    (∀ s : SourceNode, s ∉ (AudioEngineU.onEnded stU s).activeSources) := by
  refine ⟨rfl, rfl, rfl, ?_, ?_, ?_⟩
  · intro s _
    cases h : s.ended <;>
      simp [AudioEngineU.sourceStopCaught, AudioEngineU.sourceStopRaw, h]
  · intro s h
    simp [AudioEngineU.sourceStopCaught, AudioEngineU.sourceStopRaw, h]
  · intro s
    simp [AudioEngineU.onEnded, List.mem_filter]

/-- Witness for C4 on a concrete state with a live and a finished source. -/
theorem C4_stop_clears_witness :
    (AudioEngineU.stop stU1).activeSources = [] ∧
    (AudioEngineS.stopAll stS1).activeSources = [] ∧
    (AudioEngineU.sourceStopCaught srcLive).ended = true ∧
    AudioEngineU.sourceStopCaught srcEnded = srcEnded ∧
    srcEnded ∉ (AudioEngineU.onEnded stU1 srcEnded).activeSources :=
  ⟨(C4_stop_clears stU1 stS1).1, (C4_stop_clears stU1 stS1).2.2.1,
    (C4_stop_clears stU1 stS1).2.2.2.1 srcLive (by decide),
    (C4_stop_clears stU1 stS1).2.2.2.2.1 srcEnded (by decide),
    (C4_stop_clears stU1 stS1).2.2.2.2.2 srcEnded⟩

/-- C5: at the instant of play the reported time equals the seek offset;
while playing it equals wall clock now minus the wall time at play plus the
offset at play, hence it is monotone in wall time; while not playing it is
the stored paused position, unaffected by wall clock advance. -/
theorem C5_current_time (st : AudioEngineU.EngineState) (clips : List ClipU)
    (tracks : List TrackU) (s t t1 t2 : ℚ) :
    AudioEngineU.getCurrentTime (AudioEngineU.play st clips tracks s) = s ∧
    (0 ≤ t → AudioEngineU.getCurrentTime
        (AudioEngineU.advance (AudioEngineU.play st clips tracks s) t) =
      (st.now + t) - st.now + s) ∧
    (t1 ≤ t2 → AudioEngineU.getCurrentTime
        (AudioEngineU.advance (AudioEngineU.play st clips tracks s) t1) ≤
      AudioEngineU.getCurrentTime
        (AudioEngineU.advance (AudioEngineU.play st clips tracks s) t2)) ∧
    (st.isPlaying = false → AudioEngineU.getCurrentTime st = st.pausedAt ∧
      AudioEngineU.getCurrentTime (AudioEngineU.advance st t) = st.pausedAt) := by
  refine ⟨?_, ?_, ?_, ?_⟩
  · cases hP : st.isPlaying <;>
      simp [AudioEngineU.play, AudioEngineU.stop, AudioEngineU.getCurrentTime, hP]
  · intro ht
    cases hP : st.isPlaying <;>
      simp [AudioEngineU.play, AudioEngineU.stop, AudioEngineU.advance,
        AudioEngineU.getCurrentTime, hP]
  · intro h12
    cases hP : st.isPlaying <;>
      simp [AudioEngineU.play, AudioEngineU.stop, AudioEngineU.advance,
        AudioEngineU.getCurrentTime, hP] <;> linarith
  · intro hP
    simp [AudioEngineU.getCurrentTime, AudioEngineU.advance, hP]

/-- Witness for C5 at concrete play and advance instants. -/
theorem C5_current_time_witness :
    AudioEngineU.getCurrentTime (AudioEngineU.play stc [clipA] [trackA] 2) = 2 ∧
    AudioEngineU.getCurrentTime
        (AudioEngineU.advance (AudioEngineU.play stc [clipA] [trackA] 2) 1) =
      (stc.now + 1) - stc.now + 2 ∧
    AudioEngineU.getCurrentTime
        (AudioEngineU.advance (AudioEngineU.play stc [clipA] [trackA] 2) 0) ≤
      AudioEngineU.getCurrentTime
        (AudioEngineU.advance (AudioEngineU.play stc [clipA] [trackA] 2) 1) :=
  ⟨(C5_current_time stc [clipA] [trackA] 2 1 0 1).1,
    (C5_current_time stc [clipA] [trackA] 2 1 0 1).2.1 (by norm_num),
    (C5_current_time stc [clipA] [trackA] 2 1 0 1).2.2.1 (by norm_num)⟩

/-- Services clip referencing a buffer identifier absent from the store. -/
def clipS2 : ClipS := ⟨"c9", "zz", "t1", 0, 0, 1⟩

/-- Second services engine state: same sample store as stS1 but different
wall clock, chain set and active sources. -/
def stS2 : AudioEngineS.EngineState := ⟨99, [("b1", bufA)], ["x"], [srcLive]⟩

/-- C6: a clip whose buffer identifier misses the sample store, or whose
track identifier owns no chain, is skipped by schedulePlayback and by
exportProject without any error, and the remaining clips of the call are
scheduled exactly as if the absent clip were not there. -/
theorem C6_absent_skip (st : AudioEngineS.EngineState) (tracks : List TrackS)
    (startOffset totalDuration : ℚ) (clip : ClipS)
    (clips1 clips2 : List ClipS) :
    ((st.bufferMap.lookup clip.bufferId = none ∨
        clip.trackId ∉ AudioEngineS.setupTracks st.trackNodes tracks) →
      AudioEngineS.scheduleClip st.bufferMap
          (AudioEngineS.setupTracks st.trackNodes tracks) st.now startOffset
          clip = none ∧
      (AudioEngineS.schedulePlayback st (clips1 ++ clip :: clips2) startOffset
          tracks).activeSources =
        (AudioEngineS.schedulePlayback st (clips1 ++ clips2) startOffset
          tracks).activeSources) ∧
    ((st.bufferMap.lookup clip.bufferId = none ∨
        clip.trackId ∉ tracks.map TrackS.id) →
      AudioEngineS.exportClip st.bufferMap tracks clip = none ∧
      (AudioEngineS.exportProject st (clips1 ++ clip :: clips2) tracks
          totalDuration).sources =
        (AudioEngineS.exportProject st (clips1 ++ clips2) tracks
          totalDuration).sources) := by
  constructor
  · intro h
    have hnone : AudioEngineS.scheduleClip st.bufferMap
        (AudioEngineS.setupTracks st.trackNodes tracks) st.now startOffset
        clip = none := by
      unfold AudioEngineS.scheduleClip
      refine if_neg ?_
      rintro ⟨h1, h2⟩
      rcases h with h | h
      · rw [h] at h1; exact absurd h1 (by simp)
      · exact h h2
    refine ⟨hnone, ?_⟩
    simp [AudioEngineS.schedulePlayback, AudioEngineS.stopAll,
      List.filterMap_append, List.filterMap_cons, hnone]
  · intro h
    have hnone : AudioEngineS.exportClip st.bufferMap tracks clip = none := by
      unfold AudioEngineS.exportClip
      refine if_neg ?_
      rintro ⟨h1, h2⟩
      rcases h with h | h
      · rw [h] at h1; exact absurd h1 (by simp)
      · exact h h2
    refine ⟨hnone, ?_⟩
    simp [AudioEngineS.exportProject, List.filterMap_append,
      List.filterMap_cons, hnone]

/-- Witness for C6: a clip with an unknown buffer identifier is skipped while
the following clip of the same call is still scheduled, live and offline. -/
theorem C6_absent_skip_witness :
    AudioEngineS.scheduleClip stS1.bufferMap
        (AudioEngineS.setupTracks stS1.trackNodes [trackS1]) stS1.now 0
        clipS2 = none ∧
    (AudioEngineS.schedulePlayback stS1 [clipS2, clipS1] 0
        [trackS1]).activeSources =
      (AudioEngineS.schedulePlayback stS1 [clipS1] 0 [trackS1]).activeSources ∧
    AudioEngineS.exportClip stS1.bufferMap [trackS1] clipS2 = none ∧
    (AudioEngineS.exportProject stS1 [clipS2, clipS1] [trackS1] 1).sources =
      (AudioEngineS.exportProject stS1 [clipS1] [trackS1] 1).sources :=
  ⟨((C6_absent_skip stS1 [trackS1] 0 1 clipS2 [] [clipS1]).1 (Or.inl rfl)).1,
    ((C6_absent_skip stS1 [trackS1] 0 1 clipS2 [] [clipS1]).1 (Or.inl rfl)).2,
    ((C6_absent_skip stS1 [trackS1] 0 1 clipS2 [] [clipS1]).2 (Or.inl rfl)).1,
    ((C6_absent_skip stS1 [trackS1] 0 1 clipS2 [] [clipS1]).2 (Or.inl rfl)).2⟩

/-- C7 counterexample: a clip whose buffer is present in the store but whose
track is not among the given tracks gets no source at all in exportProject,
so the claim quantified over every clip with a present buffer is false. -/
theorem C7_missing_track_counterexample :
    stS1.bufferMap.lookup clipS1.bufferId = some bufA ∧
    (AudioEngineS.exportProject stS1 [clipS1] [] 1).sources = [] := by
  exact ⟨rfl, rfl⟩

theorem lookup_chains (f : TrackS → ChainParams) (tracks : List TrackS)
    (track : TrackS) (htrk : track ∈ tracks)
    (hnodup : (tracks.map TrackS.id).Nodup) :
    (tracks.map (fun t => (t.id, f t))).lookup track.id = some (f track) := by
  induction tracks with
  | nil => exact absurd htrk (List.not_mem_nil track)
  | cons t ts ih =>
    obtain ⟨hni, hnd⟩ : (∀ x ∈ ts, ¬ x.id = t.id) ∧ (ts.map TrackS.id).Nodup := by
      simpa using hnodup
    rcases List.mem_cons.mp htrk with rfl | hmem
    · simp [List.lookup]
    · have hne : (track.id == t.id) = false :=
        beq_eq_false_iff_ne.mpr (hni track hmem)
      simpa [List.lookup, hne] using ih hmem hnd

/-- C7 amended: exportProject renders into a stereo context of ceil of
totalDuration times 44100 frames at 44100 Hz; every clip whose buffer is
present AND whose track is among the given tracks gets exactly one one-shot
source at its absolute startTime reading offset for duration; the track
chain parameters are set once as static values. -/
theorem C7_export_graph (st : AudioEngineS.EngineState) (clips : List ClipS)
    (tracks : List TrackS) (totalDuration : ℚ) (clip : ClipS)
    (buf : AudioBufferM) (track : TrackS)
    (hbuf : st.bufferMap.lookup clip.bufferId = some buf)
    (htrk : track ∈ tracks) (hid : track.id = clip.trackId)
    (hnodup : (tracks.map TrackS.id).Nodup) :
    (AudioEngineS.exportProject st clips tracks totalDuration).numberOfChannels
      = 2 ∧
    (AudioEngineS.exportProject st clips tracks totalDuration).lengthInSamples
      = ⌈totalDuration * 44100⌉ ∧
    (AudioEngineS.exportProject st clips tracks totalDuration).sampleRate
      = 44100 ∧
    AudioEngineS.exportClip st.bufferMap tracks clip =
      some ⟨clip.trackId, clip.startTime, clip.offset, clip.duration, 1⟩ ∧
    (AudioEngineS.exportProject st clips tracks totalDuration).sources =
      clips.filterMap (AudioEngineS.exportClip st.bufferMap tracks) ∧
    (AudioEngineS.exportProject st clips tracks
        totalDuration).chains.lookup clip.trackId =
      some (AudioEngineS.exportChainParams track) := by
  have hc : (st.bufferMap.lookup clip.bufferId).isSome
      ∧ clip.trackId ∈ tracks.map TrackS.id := by
    constructor
    · rw [hbuf]; rfl
    · rw [← hid]; exact List.mem_map_of_mem TrackS.id htrk
  refine ⟨rfl, rfl, rfl, ?_, rfl, ?_⟩
  · unfold AudioEngineS.exportClip
    rw [if_pos hc]
  · show (tracks.map
        (fun t => (t.id, AudioEngineS.exportChainParams t))).lookup clip.trackId
      = some (AudioEngineS.exportChainParams track)
    rw [← hid]
    exact lookup_chains AudioEngineS.exportChainParams tracks track htrk hnodup

/-- Witness for the amended C7 on a one-clip one-track project. -/
theorem C7_export_graph_witness :
    (AudioEngineS.exportProject stS1 [clipS1] [trackS1] 1).lengthInSamples
      = 44100 ∧
    AudioEngineS.exportClip stS1.bufferMap [trackS1] clipS1 =
      some ⟨"t1", 0, 0, 1, 1⟩ ∧
    (AudioEngineS.exportProject stS1 [clipS1] [trackS1] 1).chains.lookup "t1" =
      some (AudioEngineS.exportChainParams trackS1) := by
  have h := C7_export_graph stS1 [clipS1] [trackS1] 1 clipS1 bufA trackS1 rfl
    (by simp) rfl (by simp)
  refine ⟨?_, ?_, ?_⟩
  · rw [h.2.1]; norm_num
  · exact h.2.2.2.1
  · exact h.2.2.2.2.2

/-- C9: the offline export graph is a function of the clips, tracks, total
duration and sample store alone; two engine states with the same sample store
produce identical graphs, whatever their wall clock, chain set or active
sources, so the rendered sample data is bit identical across runs. -/
theorem C9_export_deterministic (st1 st2 : AudioEngineS.EngineState)
    (clips : List ClipS) (tracks : List TrackS) (totalDuration : ℚ)
    (hmap : st1.bufferMap = st2.bufferMap) :
    AudioEngineS.exportProject st1 clips tracks totalDuration =
      AudioEngineS.exportProject st2 clips tracks totalDuration := by
  unfold AudioEngineS.exportProject
  rw [hmap]

/-- Witness for C9: two states sharing the store but differing in wall clock,
chains and active sources export the same graph. -/
theorem C9_export_deterministic_witness :
    AudioEngineS.exportProject stS1 [clipS1] [trackS1] 1 =
      AudioEngineS.exportProject stS2 [clipS1] [trackS1] 1 :=
  C9_export_deterministic stS1 stS2 [clipS1] [trackS1] 1 rfl

/-- C10: stop changes only the active source set and the playing flag; the
stored paused position keeps the startOffset of the last play call, so after
play at offset s followed by any wall clock advance and stop, the reported
time rewinds to s. -/
theorem C10_stop_frame (st : AudioEngineU.EngineState) (clips : List ClipU)
    (tracks : List TrackU) (s t : ℚ) :
    (AudioEngineU.stop st).pausedAt = st.pausedAt ∧
    (AudioEngineU.stop st).startTime = st.startTime ∧
    (AudioEngineU.stop st).now = st.now ∧
    (AudioEngineU.stop st).trackChains = st.trackChains ∧
    (AudioEngineU.stop st).activeSources = [] ∧
    (AudioEngineU.stop st).isPlaying = false ∧
    AudioEngineU.getCurrentTime
      (AudioEngineU.stop
        (AudioEngineU.advance (AudioEngineU.play st clips tracks s) t)) = s := by
  refine ⟨rfl, rfl, rfl, rfl, rfl, rfl, ?_⟩
  cases hP : st.isPlaying <;>
    simp [AudioEngineU.play, AudioEngineU.stop, AudioEngineU.advance,
      AudioEngineU.getCurrentTime, hP]

/-- Little endian bytes DataView.setUint16 writes for a value. -/
def u16le (n : ℕ) : List ℕ := [n % 256, n / 256 % 256]

/-- Little endian bytes DataView.setUint32 writes for a value. -/
def u32le (n : ℕ) : List ℕ :=
  [n % 256, n / 256 % 256, n / 65536 % 256, n / 16777216 % 256]

/-- Clamp of a float sample to the unit range, Math.max of -1 and Math.min of
1 and the sample, as in bufferToWav. -/
def clampSample (s : ℚ) : ℚ := max (-1) (min 1 s)

/-- JavaScript bitwise or with zero on an in-range value: truncation of the
fractional part towards zero. -/
def truncInt (q : ℚ) : ℤ := if 0 ≤ q then ⌊q⌋ else ⌈q⌉

/-- Sample conversion of bufferToWav in src/utils/audioEngine.ts: clamp, then
scale by 32768 when one half plus the clamped value is negative and by 32767
otherwise, then truncate. -/
def toInt16 (s : ℚ) : ℤ :=
  let c := clampSample s
  truncInt (if 1 / 2 + c < 0 then c * 32768 else c * 32767)

/-- Little endian two byte two complement encoding DataView.setInt16 writes. -/
def i16le (z : ℤ) : List ℕ :=
  let n := (z % 65536).toNat
  [n % 256, n / 256 % 256]

/-- Read of channel data at a channel index and frame position. -/
def sampleAt (b : AudioBufferM) (ch pos : ℕ) : ℚ :=
  (b.channels.getD ch []).getD pos 0

/-- Interleaved sixteen bit samples the encoding loop of bufferToWav actually
converts, frames outermost and channels innermost. The loop reuses the header
byte cursor as its frame index without resetting it, so it enters at frame 44
and converts frames 44 up to the frame count only; a buffer of at most 44
frames has no frame converted at all. -/
def wavSamples (b : AudioBufferM) : List ℤ :=
  ((List.range b.frames).drop 44).flatMap (fun pos =>
    (List.range b.numberOfChannels).map (fun ch => toInt16 (sampleAt b ch pos)))

/-- AudioEngine.bufferToWav of src/utils/audioEngine.ts as the byte sequence
it writes: the RIFF WAVE header fields in source order, then the data chunk of
the zero initialised ArrayBuffer, whose leading bytes are the converted
samples of frames 44 onward and whose remaining bytes keep their initial
zero value. -/
def bufferToWav (b : AudioBufferM) : List ℕ :=
  let numOfChan := b.numberOfChannels
  let len := b.frames * numOfChan * 2 + 44
  u32le 0x46464952 ++ u32le (len - 8) ++ u32le 0x45564157 ++
    u32le 0x20746d66 ++ u32le 16 ++ u16le 1 ++ u16le numOfChan ++
    u32le b.sampleRate ++ u32le (b.sampleRate * 2 * numOfChan) ++
    u16le (numOfChan * 2) ++ u16le 16 ++ u32le 0x61746164 ++
    u32le (len - 44) ++
    ((wavSamples b).flatMap i16le ++
      List.replicate (b.frames * numOfChan * 2 - 2 * (wavSamples b).length) 0)

/-- Little endian sixteen bit read at a byte position. -/
def readU16 (l : List ℕ) (pos : ℕ) : ℕ :=
  l.getD pos 0 + 256 * l.getD (pos + 1) 0

/-- Little endian thirty two bit read at a byte position. -/
def readU32 (l : List ℕ) (pos : ℕ) : ℕ :=
  l.getD pos 0 + 256 * l.getD (pos + 1) 0 + 65536 * l.getD (pos + 2) 0 +
    16777216 * l.getD (pos + 3) 0

theorem flatMap_i16le_length (l : List ℤ) :
    (l.flatMap i16le).length = 2 * l.length := by
  induction l with
  | nil => rfl
  | cons z zs ih =>
    simp only [List.flatMap_cons, List.length_append, List.length_cons, ih, i16le]
    simp
    omega

theorem wavSamples_length (b : AudioBufferM) :
    (wavSamples b).length = (b.frames - 44) * b.numberOfChannels := by
  have h : ∀ l : List ℕ, (l.flatMap (fun pos =>
      (List.range b.numberOfChannels).map
        (fun ch => toInt16 (sampleAt b ch pos)))).length =
      l.length * b.numberOfChannels := by
    intro l
    induction l with
    | nil => simp
    | cons p ps ih =>
      simp only [List.flatMap_cons, List.length_append, ih, List.length_map,
        List.length_range, List.length_cons]
      ring
  unfold wavSamples
  rw [h]
  simp

theorem truncInt_bounds (q : ℚ) (hlo : -32768 ≤ q) (hhi : q ≤ 32767) :
    -32768 ≤ truncInt q ∧ truncInt q ≤ 32767 := by
  unfold truncInt
  split
  · next h0 =>
    constructor
    · have hf : (0 : ℤ) ≤ ⌊q⌋ := Int.floor_nonneg.mpr h0
      omega
    · have hf : (⌊q⌋ : ℚ) ≤ 32767 := le_trans (Int.floor_le q) hhi
      exact_mod_cast hf
  · next h0 =>
    constructor
    · have hcl : (-32768 : ℚ) ≤ (⌈q⌉ : ℚ) := le_trans hlo (Int.le_ceil q)
      exact_mod_cast hcl
    · exact Int.ceil_le.mpr (by exact_mod_cast hhi)

theorem toInt16_bounds (s : ℚ) : -32768 ≤ toInt16 s ∧ toInt16 s ≤ 32767 := by
  have hc1 : (-1 : ℚ) ≤ clampSample s := le_max_left _ _
  have hc2 : clampSample s ≤ 1 := max_le (by norm_num) (min_le_left _ _)
  simp only [toInt16]
  by_cases h : 1 / 2 + clampSample s < 0
  · rw [if_pos h]
    exact truncInt_bounds _ (by linarith) (by linarith)
  · rw [if_neg h]
    exact truncInt_bounds _ (by linarith) (by linarith)

/-- C8: the encoded WAV byte sequence has total length 44 plus two bytes per
channel per frame; the little endian header records PCM format tag one,
sixteen bits per sample, the channel count, the sample rate and a data chunk
length equal to the payload size; and every stored sample integer lies in
the sixteen bit range with no wraparound. -/
theorem C8_wav_format (b : AudioBufferM)
    (hch : b.numberOfChannels < 65536)
    (hsr : b.sampleRate < 4294967296)
    (hdata : 2 * b.numberOfChannels * b.frames < 4294967296) :
    (bufferToWav b).length = 44 + 2 * b.numberOfChannels * b.frames ∧
    readU16 (bufferToWav b) 20 = 1 ∧
    readU16 (bufferToWav b) 22 = b.numberOfChannels ∧
    readU32 (bufferToWav b) 24 = b.sampleRate ∧
    readU16 (bufferToWav b) 34 = 16 ∧
    readU32 (bufferToWav b) 40 = 2 * b.numberOfChannels * b.frames ∧
    (∀ z ∈ wavSamples b, -32768 ≤ z ∧ z ≤ 32767) := by
  refine ⟨?_, ?_, ?_, ?_, ?_, ?_, ?_⟩
  · have h1 : (b.frames - 44) * b.numberOfChannels ≤
        b.frames * b.numberOfChannels :=
      Nat.mul_le_mul_right _ (Nat.sub_le _ _)
    have h2 : b.frames * b.numberOfChannels * 2 =
        2 * b.numberOfChannels * b.frames := by ring
    simp only [bufferToWav, u32le, u16le, List.length_append, List.length_cons,
      List.length_nil, List.length_replicate, flatMap_i16le_length,
      wavSamples_length]
    omega
  · simp [bufferToWav, u32le, u16le, readU16]
  · simp [bufferToWav, u32le, u16le, readU16]
    omega
  · simp [bufferToWav, u32le, u16le, readU32]
    omega
  · simp [bufferToWav, u32le, u16le, readU16]
  · simp only [bufferToWav, u32le, u16le, readU32]
    simp
    rw [show b.frames * b.numberOfChannels * 2 =
      2 * b.numberOfChannels * b.frames from by ring]
    revert hdata
    generalize 2 * b.numberOfChannels * b.frames = n
    intro hdata
    omega
  · intro z hz
    unfold wavSamples at hz
    simp only [List.mem_flatMap, List.mem_map] at hz
    obtain ⟨pos, -, ch, -, rfl⟩ := hz
    exact toInt16_bounds _

/-- Concrete one channel two frame buffer for the C8 witness; the second
sample lies outside the unit range and is clamped. -/
def bufW : AudioBufferM := ⟨8000, 2, [[1 / 2, -2]]⟩

/-- Witness for C8 on the concrete buffer. -/
theorem C8_wav_format_witness :
    (bufferToWav bufW).length = 48 ∧
    readU16 (bufferToWav bufW) 20 = 1 ∧
    readU16 (bufferToWav bufW) 22 = 1 ∧
    readU32 (bufferToWav bufW) 24 = 8000 ∧
    readU16 (bufferToWav bufW) 34 = 16 ∧
    readU32 (bufferToWav bufW) 40 = 4 :=
  ⟨(C8_wav_format bufW (by decide) (by decide) (by decide)).1,
    (C8_wav_format bufW (by decide) (by decide) (by decide)).2.1,
    (C8_wav_format bufW (by decide) (by decide) (by decide)).2.2.1,
    (C8_wav_format bufW (by decide) (by decide) (by decide)).2.2.2.1,
    (C8_wav_format bufW (by decide) (by decide) (by decide)).2.2.2.2.1,
    (C8_wav_format bufW (by decide) (by decide) (by decide)).2.2.2.2.2.1⟩
